import Mathlib

/-!
Verification of the calendar/todo application's core subsystems against its
natural-language specification: the time-grid layout calculator
(`getEventPosition` in the day/week views), the entity store (`events.ts` and
the todo store), and the reminder scheduler (`scheduleNotification`,
`cancelNotification`, `requestNotificationPermission` in `page.tsx`).

The embedding is shallow: TypeScript records become structures, the
localStorage medium becomes an explicit store state with a `writeFails` flag
(a failing `localStorage.setItem` throws, is caught, and leaves the durable
state untouched), the browser timer queue becomes an explicit list of armed
timers, and JavaScript truthiness on optional strings and numbers is
modelled explicitly (`undefined`, the empty string and `0` are falsy).
-/

namespace MobileApp

/-- Calendar event record, from `lib/types.ts`: optional fields are `Option`. -/
structure CalendarEvent where
  id : String
  title : String
  description : Option String := none
  date : String
  startTime : Option String := none
  endTime : Option String := none
  allDay : Bool
  reminderMinutes : Option Nat := none
deriving Repr, DecidableEq

/-- Todo record, from `lib/types.ts`. -/
structure TodoItem where
  id : String
  title : String
  date : String
  completed : Bool
  description : Option String := none
deriving Repr, DecidableEq

/-- JavaScript truthiness of an optional string: `undefined` and `""` are falsy. -/
def truthyStr : Option String → Bool
  | none => false
  | some s => !(s == "")

/-- JavaScript truthiness of an optional number: `undefined` and `0` are falsy. -/
def truthyNat : Option Nat → Bool
  | none => false
  | some n => !(n == 0)

/-! ## Time-grid layout engine (`getEventPosition`) -/

/-- JavaScript `String.prototype.split` with a one-character separator, on the
character list of the string: `"".split(sep)` is `[""]`, and separators at the
ends produce empty pieces, exactly as in JS. -/
def splitOnChar (sep : Char) : List Char → List (List Char)
  | [] => [[]]
  | c :: cs =>
    let rest := splitOnChar sep cs
    if c = sep then [] :: rest
    else
      match rest with
      | [] => [[c]]
      | r :: rs => (c :: r) :: rs

/-- Decimal-digit parse of a character list: `none` on a non-digit. The empty
list parses to `none` here (JS `Number("")` is `0`; callers that need that
quirk go through `numOrZero`). -/
def digitsToNat? (cs : List Char) : Option Nat :=
  if cs.isEmpty then none
  else
    cs.foldl
      (fun acc c =>
        match acc with
        | none => none
        | some a => if c.isDigit then some (a * 10 + (c.toNat - 48)) else none)
      (some 0)

/-- JavaScript `Number` on a split piece, as the layout code uses it:
`Number("")` is `0`; a non-numeric piece yields NaN in JS, which no claim
exercises, so it is collapsed to `0` here. -/
def numOrZero (cs : List Char) : ℚ :=
  ((digitsToNat? cs).getD 0 : ℚ)

/-- Minutes after midnight of a time string, as the layout code computes it:
`const [h, m] = s.split(':').map(Number); h * 60 + m`. -/
def looseTimeMinutes (s : String) : ℚ :=
  let parts := splitOnChar ':' s.toList
  numOrZero (parts.getD 0 []) * 60 + numOrZero (parts.getD 1 [])

/-- Vertical pixel span of a positioned event. -/
structure Span where
  top : ℚ
  height : ℚ
deriving Repr, DecidableEq

/-- Minimum rendered height in pixels (`Math.max(height, 15)` in the source). -/
def MIN_HEIGHT_PX : ℚ := 15

/-- Start minutes used by the layout for an event (its `startTime`, loosely parsed). -/
def startMinutesVal (event : CalendarEvent) : ℚ :=
  looseTimeMinutes (event.startTime.getD (""))

/-- Effective end minutes used by the layout: `endTime` when truthy and strictly
after the start, otherwise `start + 60`. -/
def effectiveEndVal (event : CalendarEvent) : ℚ :=
  let startTimeInMinutes := startMinutesVal event
  let endTimeInMinutes :=
    if truthyStr event.endTime then looseTimeMinutes (event.endTime.getD (""))
    else startTimeInMinutes + 60
  if endTimeInMinutes ≤ startTimeInMinutes then startTimeInMinutes + 60 else endTimeInMinutes

/-- The layout function `getEventPosition` from `calendar-day-view.tsx`
(the week views use the identical function, with a different `hourHeight`). -/
def getEventPosition (event : CalendarEvent) (hourHeight : ℚ) : Option Span :=
  if event.allDay || !truthyStr event.startTime then none
  else
    let startTimeInMinutes := startMinutesVal event
    let endTimeInMinutes := effectiveEndVal event
    let top := startTimeInMinutes / 60 * hourHeight
    let height := (endTimeInMinutes - startTimeInMinutes) / 60 * hourHeight
    some { top := top, height := max height MIN_HEIGHT_PX }

/-- Concrete event for the layout example: 09:00–10:30, timed. -/
def standupEvent : CalendarEvent :=
  { id := "ev-standup", title := "Standup", date := "2024-06-01",
    startTime := some "09:00", endTime := some "10:30", allDay := false }

/-- Concrete event with an inverted time range: 10:00–09:30. -/
def invertedEvent : CalendarEvent :=
  { id := "ev-inv", title := "Inverted", date := "2024-06-01",
    startTime := some "10:00", endTime := some "09:30", allDay := false }

/-! ## Entity store (`lib/events.ts` and the todo store)

The durable medium is modelled as the list held in `stored`; a failing
`localStorage.setItem` (quota, serialization) throws inside `safelySet…`,
is caught and logged there, and leaves the durable state untouched — the
`writeFails` flag selects that behaviour. -/

/-! ## Entity store (`lib/events.ts` and the todo store)

The durable medium is the list held in `stored`; a failing
`localStorage.setItem` (quota, serialization) throws inside the `safelySet`
helpers, is caught and logged there, and leaves the durable state untouched —
the `writeFails` flag selects that behaviour. -/

/-- Event store state: the durable collection plus the write-failure mode of
the underlying medium. -/
structure EventStore where
  stored : List CalendarEvent
  writeFails : Bool
deriving Repr, DecidableEq

/-- Read side of `safelyGetEvents` (read errors are caught and yield `[]` in
the source; no claim exercises them, so reads here always succeed). -/
def safelyGetEvents (st : EventStore) : List CalendarEvent :=
  st.stored

/-- Write side `safelySetEvents`: a throwing `setItem` is caught and logged,
leaving the durable state unchanged; the function returns no signal. -/
def safelySetEvents (st : EventStore) (events : List CalendarEvent) : EventStore :=
  if st.writeFails then st else { st with stored := events }

/-- The store operation `addEvent`: assign a fresh id (`crypto.randomUUID`,
passed in as `newId`), append, persist, return the id-assigned entity. -/
def addEvent (st : EventStore) (newEvent : CalendarEvent) (newId : String) :
    EventStore × CalendarEvent :=
  let events := safelyGetEvents st
  let eventWithId := { newEvent with id := newId }
  (safelySetEvents st (events ++ [eventWithId]), eventWithId)

/-- The store operation `updateEvent`: `findIndex` by id; `null` when absent,
otherwise replace the record at that index and persist. -/
def updateEvent (st : EventStore) (updatedEvent : CalendarEvent) :
    EventStore × Option CalendarEvent :=
  let events := safelyGetEvents st
  match events.findIdx? (fun e => e.id == updatedEvent.id) with
  | none => (st, none)
  | some i => (safelySetEvents st (events.set i updatedEvent), some updatedEvent)

/-- The store operation `deleteEvent`: filter the id out; `false` when the
length did not change (id absent), otherwise persist and return `true`. -/
def deleteEvent (st : EventStore) (eventId : String) : EventStore × Bool :=
  let events := safelyGetEvents st
  let updatedEvents := events.filter (fun e => e.id != eventId)
  if updatedEvents.length = events.length then (st, false)
  else (safelySetEvents st updatedEvents, true)

/-- Todo store state, mirroring `EventStore` for the todo collection. -/
structure TodoStore where
  stored : List TodoItem
  writeFails : Bool
deriving Repr, DecidableEq

/-- Read side of `safelyGetTodos`. -/
def safelyGetTodos (st : TodoStore) : List TodoItem :=
  st.stored

/-- Write side `safelySetTodos`, with the same caught-failure semantics as
`safelySetEvents`. -/
def safelySetTodos (st : TodoStore) (todos : List TodoItem) : TodoStore :=
  if st.writeFails then st else { st with stored := todos }

/-- The store operation `toggleTodoCompletion`: `findIndex` by id; `null` when
absent, otherwise replace the record at that index with a copy whose
`completed` flag is negated, persist, and return the updated record. -/
def toggleTodoCompletion (st : TodoStore) (todoId : String) :
    TodoStore × Option TodoItem :=
  let todos := safelyGetTodos st
  match todos.findIdx? (fun t => t.id == todoId) with
  | none => (st, none)
  | some i =>
    match todos[i]? with
    | none => (st, none)
    | some t =>
      let updatedTodo := { t with completed := !t.completed }
      (safelySetTodos st (todos.set i updatedTodo), some updatedTodo)

/-! ## Wall-clock parsing for the scheduler

`scheduleNotification` parses `"${date} ${startTime}"` with date-fns
(`'yyyy-MM-dd HH:mm'`); an unparsable combination yields an invalid date
(`isNaN` guard). The instant is modelled in milliseconds since the epoch,
with days computed by the standard civil-calendar formula. -/

/-! ## Wall-clock parsing for the scheduler

`scheduleNotification` parses `date + " " + startTime` with date-fns
(format `yyyy-MM-dd HH:mm`); an unparsable combination yields an invalid
date (the `isNaN` guard). Instants are milliseconds since the epoch, with
days computed by the standard civil-calendar formula. -/

/-- Days since 1970-01-01 of a civil date (proleptic Gregorian). -/
def daysFromCivil (y m d : Int) : Int :=
  let y2 := if m ≤ 2 then y - 1 else y
  let era := Int.fdiv y2 400
  let yoe := y2 - era * 400
  let mp := Int.emod (m + 9) 12
  let doy := Int.fdiv (153 * mp + 2) 5 + d - 1
  let doe := yoe * 365 + Int.fdiv yoe 4 - Int.fdiv yoe 100 + doy
  era * 146097 + doe - 719468

/-- Strict `yyyy-MM-dd` parse to a day number; `none` on a malformed date
(the `isNaN(eventDateTime.getTime())` case in the source). -/
def parseDateDays (s : String) : Option Int :=
  match splitOnChar '-' s.toList with
  | [ys, ms, ds] =>
    match digitsToNat? ys, digitsToNat? ms, digitsToNat? ds with
    | some y, some m, some d =>
      if 1 ≤ m ∧ m ≤ 12 ∧ 1 ≤ d ∧ d ≤ 31 then some (daysFromCivil y m d) else none
    | _, _, _ => none
  | _ => none

/-- Strict `HH:mm` parse to minutes after midnight; `none` on a malformed
time. -/
def parseTimeMinutes (s : String) : Option Nat :=
  match splitOnChar ':' s.toList with
  | [hs, ms] =>
    match digitsToNat? hs, digitsToNat? ms with
    | some hh, some mm => if hh < 24 ∧ mm < 60 then some (hh * 60 + mm) else none
    | _, _ => none
  | _ => none

/-- The `parse(date + " " + startTime, 'yyyy-MM-dd HH:mm')` call: epoch
milliseconds of the local wall-clock instant, `none` when invalid. -/
def combineDateTime (date time : String) : Option Int :=
  match parseDateDays date, parseTimeMinutes time with
  | some days, some mins => some ((days * 1440 + (mins : Int)) * 60000)
  | _, _ => none

/-! ## Reminder scheduler (`page.tsx`) -/

/-- Browser notification-permission values (`'default' | 'granted' | 'denied'`);
the module-level `notificationPermission` variable is `Option NotifPerm`
(`null` before the feature test ran). -/
inductive NotifPerm
  | default
  | granted
  | denied
deriving Repr, DecidableEq

/-- Environment of `requestNotificationPermission`: whether the browser
supports `Notification`, what the (single) prompt would resolve to, and
whether `Notification.requestPermission()` rejects. -/
structure PermEnv where
  supported : Bool
  promptResult : NotifPerm
  promptThrows : Bool
deriving Repr, DecidableEq

/-- The function `requestNotificationPermission`, returning the boolean
result, the updated module-level permission state, and how many times the
user was prompted. -/
def requestNotificationPermission (env : PermEnv) (state : Option NotifPerm) :
    Bool × Option NotifPerm × Nat :=
  if !env.supported then (false, state, 0)
  else if state = some NotifPerm.granted then (true, state, 0)
  else if state ≠ some NotifPerm.denied then
    if env.promptThrows then (false, state, 1)
    else (env.promptResult == NotifPerm.granted, some env.promptResult, 1)
  else (false, state, 0)

/-- A notification as handed to the platform sink
(`new Notification(title, { body, tag })`). -/
structure SchedNotification where
  title : String
  body : String
  tag : String
deriving Repr, DecidableEq

/-- An armed `setTimeout` callback: its timeout handle, the event id the
callback will delete from the registry, the instant it fires at, and the
notification it will emit. -/
structure PendingTimer where
  timeoutId : Nat
  eventId : String
  fireAt : Int
  payload : SchedNotification
deriving Repr, DecidableEq

/-- The registry `scheduledNotifications : Map<string, number>` (event id to
timeout handle), as an association list with JS `Map` update semantics. -/
abbrev Registry := List (String × Nat)

/-- JS `Map.prototype.get`. -/
def mapGet (m : Registry) (k : String) : Option Nat :=
  (m.find? (fun p => p.1 == k)).map (fun p => p.2)

/-- JS `Map.prototype.set`: replace in place when the key exists, append
otherwise. -/
def mapSet (m : Registry) (k : String) (v : Nat) : Registry :=
  if m.any (fun p => p.1 == k) then
    m.map (fun p => if p.1 == k then (k, v) else p)
  else m ++ [(k, v)]

/-- JS `Map.prototype.delete`. -/
def mapDelete (m : Registry) (k : String) : Registry :=
  m.filter (fun p => p.1 != k)

/-- Scheduler state: the registry, the browser's armed timers, the log of
notifications already shown (with the instant each fired at), and the next
timeout handle `window.setTimeout` will hand out (browsers start at 1). -/
structure SchedulerState where
  registry : Registry
  timers : List PendingTimer
  fired : List (Int × SchedNotification)
  nextTimeoutId : Nat
deriving Repr, DecidableEq

/-- Fresh scheduler state at process start. -/
def initialSchedulerState : SchedulerState :=
  { registry := [], timers := [], fired := [], nextTimeoutId := 1 }

/-- The function `cancelNotification`: look the id up; when the handle is
truthy (browser handles are ≥ 1), `clearTimeout` it and delete the registry
entry; otherwise do nothing. -/
def cancelNotification (s : SchedulerState) (eventId : String) : SchedulerState :=
  match mapGet s.registry eventId with
  | some timeoutId =>
    if timeoutId ≠ 0 then
      { s with
        timers := s.timers.filter (fun t => t.timeoutId != timeoutId),
        registry := mapDelete s.registry eventId }
    else s
  | none => s

/-- Body string of the notification:
`Starts at ${startTime}` plus `\n${description}` when the description is
truthy. -/
def notificationBody (event : CalendarEvent) : String :=
  "Starts at " ++ event.startTime.getD ("") ++
    (if truthyStr event.description then "\n" ++ event.description.getD ("") else "")

/-- The function `scheduleNotification`: guard on falsy
`reminderMinutes`/`startTime` and on `allDay`; require granted permission;
parse the trigger instant; never schedule a past trigger; then cancel any
existing timer for the id and arm a fresh one-shot timer keyed by the id. -/
def scheduleNotification (perm : Option NotifPerm) (now : Int)
    (s : SchedulerState) (event : CalendarEvent) : SchedulerState :=
  if !truthyNat event.reminderMinutes || !truthyStr event.startTime || event.allDay then s
  else if perm ≠ some NotifPerm.granted then s
  else
    match combineDateTime event.date (event.startTime.getD ("")) with
    | none => s
    | some eventInstant =>
      let notificationTime := eventInstant - (event.reminderMinutes.getD 0 : Int) * 60000
      if notificationTime ≤ now then s
      else
        let s1 := cancelNotification s event.id
        let timeoutId := s1.nextTimeoutId
        let payload : SchedNotification :=
          { title := "Upcoming: " ++ event.title,
            body := notificationBody event,
            tag := event.id }
        { s1 with
          timers := s1.timers ++ [{ timeoutId := timeoutId, eventId := event.id,
                                    fireAt := notificationTime, payload := payload }],
          registry := mapSet s1.registry event.id timeoutId,
          nextTimeoutId := timeoutId + 1 }

/-- The browser firing an armed timeout: run the callback of the timer with
that handle — emit its notification and delete the registry entry for its
event id — and retire the timeout. A cleared handle is never fired. -/
def fireTimer (s : SchedulerState) (timeoutId : Nat) : SchedulerState :=
  match s.timers.find? (fun t => t.timeoutId == timeoutId) with
  | none => s
  | some t =>
    { s with
      timers := s.timers.filter (fun x => x.timeoutId != timeoutId),
      fired := s.fired ++ [(t.fireAt, t.payload)],
      registry := mapDelete s.registry t.eventId }

/-- Notification half of `handleSaveEvent` (after a successful save): schedule
when the saved event is reminder-eligible and permission was granted, else
cancel any existing notification for its id. -/
def handleSaveNotify (perm : Option NotifPerm) (now : Int) (s : SchedulerState)
    (savedEvent : CalendarEvent) (permissionGranted : Bool) : SchedulerState :=
  if truthyNat savedEvent.reminderMinutes && truthyStr savedEvent.startTime
      && !savedEvent.allDay then
    if permissionGranted then scheduleNotification perm now s savedEvent else s
  else
    cancelNotification s savedEvent.id

/-- Shorthand for the timer record `scheduleNotification` arms: handle `tid`,
firing at `trigger` with the notification built from the event (title
`Upcoming: …`, body from start time and description, tag the event id). -/
def armedTimer (e : CalendarEvent) (tid : Nat) (trigger : Int) : PendingTimer :=
  { timeoutId := tid, eventId := e.id, fireAt := trigger,
    payload := { title := "Upcoming: " ++ e.title, body := notificationBody e,
                 tag := e.id } }

/-! ## Concrete states and events used in witnesses and counterexamples -/

/-- Concrete event store holding one event, with a working medium. -/
def storeA : EventStore := { stored := [standupEvent], writeFails := false }

/-- Concrete event store holding one event, whose medium rejects writes. -/
def failStore : EventStore := { stored := [standupEvent], writeFails := true }

/-- The stored event with an edited title, for update calls. -/
def editedStandup : CalendarEvent := { standupEvent with title := "Edited standup" }

/-- Scheduler state holding a pending timer and registry entry for `ev-1`. -/
def staleRegistryState : SchedulerState :=
  { registry := [("ev-1", 1)],
    timers := [{ timeoutId := 1, eventId := "ev-1", fireAt := 1717249500000,
                 payload := { title := "Upcoming: Past", body := "Starts at 14:00",
                              tag := "ev-1" } }],
    fired := [], nextTimeoutId := 2 }

/-- Event `ev-1` whose reminder trigger (2024-06-01 13:45) is in the past relative to `lateNow`. -/
def pastEvent : CalendarEvent :=
  { id := "ev-1", title := "Past", date := "2024-06-01", startTime := some "14:00",
    allDay := false, reminderMinutes := some 15 }

/-- An instant (in 2027) after the trigger of `pastEvent`. -/
def lateNow : Int := 1800000000000

/-- All-day event that still carries `startTime`/`reminderMinutes`, id `ev-1`. -/
def allDayReminder : CalendarEvent :=
  { id := "ev-1", title := "Holiday", date := "2024-06-02", startTime := some "09:00",
    allDay := true, reminderMinutes := some 30 }

/-- Timed event with a 15-minute reminder and a description. -/
def reminderEvent : CalendarEvent :=
  { id := "ev-dentist", title := "Dentist", description := some "Bring card",
    date := "2024-06-01", startTime := some "14:00", allDay := false,
    reminderMinutes := some 15 }

/-- First save of event `ev-meet`: 14:00 start, 15-minute reminder. -/
def firstDraftEvent : CalendarEvent :=
  { id := "ev-meet", title := "Meeting", date := "2024-06-01",
    startTime := some "14:00", allDay := false, reminderMinutes := some 15 }

/-- Second save of the same event id `ev-meet`: start moved to 16:00. -/
def secondDraftEvent : CalendarEvent :=
  { id := "ev-meet", title := "Meeting", date := "2024-06-01",
    startTime := some "16:00", allDay := false, reminderMinutes := some 15 }

/-- Concrete todo, not completed. -/
def todoA : TodoItem :=
  { id := "todo-1", title := "Water plants", date := "2024-06-01", completed := false }

/-- Concrete todo, completed. -/
def todoB : TodoItem :=
  { id := "todo-2", title := "Mail letter", date := "2024-06-01", completed := true }

/-- Concrete todo store holding `todoA` and `todoB`, with a working medium. -/
def todoStoreA : TodoStore := { stored := [todoA, todoB], writeFails := false }

/-! ## Helper lemmas -/

theorem findIdx?_cons_zero {α : Type} (p : α → Bool) (x : α) (xs : List α) :
    (x :: xs).findIdx? p = if p x then some 0 else (xs.findIdx? p).map (· + 1) := by
  rw [List.findIdx?_cons, List.findIdx?_succ]

theorem findIdx?_some_spec {α : Type} (p : α → Bool) (l : List α) (i : Nat)
    (h : l.findIdx? p = some i) :
    ∃ x, l[i]? = some x ∧ p x = true
      ∧ ∀ j, j < i → ∀ y, l[j]? = some y → p y = false := by
  induction l generalizing i with
  | nil => simp [List.findIdx?_nil] at h
  | cons a as ih =>
    rw [findIdx?_cons_zero] at h
    by_cases hp : p a
    · simp [hp] at h
      subst h
      exact ⟨a, by simp, hp, by intro j hj; omega⟩
    · simp [hp] at h
      obtain ⟨i0, hi0, rfl⟩ := h
      obtain ⟨x, hx, hpx, hmin⟩ := ih i0 hi0
      refine ⟨x, by simpa using hx, hpx, ?_⟩
      intro j hj y hy
      cases j with
      | zero => simp at hy; subst hy; simpa using hp
      | succ j0 =>
        apply hmin j0 (by omega)
        simpa using hy

theorem findIdx?_eq_some_of {α : Type} (p : α → Bool) (l : List α) (i : Nat)
    (hx : ∃ x, l[i]? = some x ∧ p x = true)
    (hmin : ∀ j, j < i → ∀ y, l[j]? = some y → p y = false) :
    l.findIdx? p = some i := by
  induction l generalizing i with
  | nil => obtain ⟨x, hx, _⟩ := hx; simp at hx
  | cons a as ih =>
    rw [findIdx?_cons_zero]
    cases i with
    | zero =>
      obtain ⟨x, hx, hpx⟩ := hx
      simp at hx
      subst hx
      simp [hpx]
    | succ i0 =>
      have hpa : p a = false := hmin 0 (by omega) a (by simp)
      simp only [hpa, if_false, Bool.false_eq_true]
      rw [ih i0 ⟨hx.choose, by simpa using hx.choose_spec.1, hx.choose_spec.2⟩]
      · rfl
      · intro j hj y hy
        exact hmin (j + 1) (by omega) y (by simpa using hy)

theorem set_getElem?_self {α : Type} (l : List α) (i : Nat) (x : α)
    (h : l[i]? = some x) : l.set i x = l := by
  induction l generalizing i with
  | nil => simp at h
  | cons a as ih =>
    cases i with
    | zero => simp at h; subst h; rfl
    | succ i0 => simp at h ⊢; exact ih i0 h

theorem mapGet_mapDelete_self (m : Registry) (k : String) :
    mapGet (mapDelete m k) k = none := by
  have hfind : (mapDelete m k).find? (fun p => p.1 == k) = none := by
    rw [List.find?_eq_none]
    intro p hp
    have := List.of_mem_filter hp
    simpa using this
  rw [mapGet, hfind]
  rfl

theorem find?_map_set (m : Registry) (k : String) (v : Nat)
    (hany : m.any (fun p => p.1 == k) = true) :
    (m.map (fun p => if p.1 == k then (k, v) else p)).find? (fun p => p.1 == k)
      = some (k, v) := by
  induction m with
  | nil => simp at hany
  | cons q qs ih =>
    by_cases hq : q.1 = k
    · simp only [List.map_cons, hq, beq_self_eq_true, if_true, List.find?_cons]
    · have hq' : (q.1 == k) = false := by simp [hq]
      simp only [List.map_cons, hq', if_false, Bool.false_eq_true, List.find?_cons, hq']
      apply ih
      simpa [hq'] using hany

theorem mapGet_mapSet_self (m : Registry) (k : String) (v : Nat) :
    mapGet (mapSet m k v) k = some v := by
  unfold mapSet
  by_cases hany : m.any (fun p => p.1 == k)
  · simp only [hany, if_true]
    rw [mapGet, find?_map_set m k v hany]
    rfl
  · simp only [hany, if_false, Bool.false_eq_true]
    have hnone : m.find? (fun p => p.1 == k) = none := by
      rw [List.find?_eq_none]
      intro p hp hc
      exact hany (List.any_eq_true.mpr ⟨p, hp, hc⟩)
    rw [mapGet, List.find?_append, hnone]
    simp [List.find?_cons]

theorem cancelNotification_nextTimeoutId (s : SchedulerState) (eventId : String) :
    (cancelNotification s eventId).nextTimeoutId = s.nextTimeoutId := by
  unfold cancelNotification
  cases mapGet s.registry eventId with
  | none => rfl
  | some tid => by_cases h : tid ≠ 0 <;> simp [h]

theorem cancelNotification_of_none (s : SchedulerState) (eventId : String)
    (h : mapGet s.registry eventId = none) :
    cancelNotification s eventId = s := by
  unfold cancelNotification
  rw [h]

theorem cancelNotification_timers_subset (s : SchedulerState) (eventId : String) :
    ∀ t ∈ (cancelNotification s eventId).timers, t ∈ s.timers := by
  intro t ht
  unfold cancelNotification at ht
  cases hmg : mapGet s.registry eventId with
  | none => rw [hmg] at ht; exact ht
  | some tid =>
    rw [hmg] at ht
    dsimp only at ht
    by_cases h0 : tid ≠ 0
    · rw [if_pos h0] at ht
      exact List.mem_of_mem_filter ht
    · rw [if_neg h0] at ht
      exact ht

theorem scheduleNotification_arms (perm : Option NotifPerm) (now : Int)
    (s : SchedulerState) (e : CalendarEvent) (inst : Int)
    (hguard : (!truthyNat e.reminderMinutes || !truthyStr e.startTime || e.allDay) = false)
    (hperm : perm = some NotifPerm.granted)
    (hc : combineDateTime e.date (e.startTime.getD ("")) = some inst)
    (hfut : now < inst - (e.reminderMinutes.getD 0 : Int) * 60000) :
    scheduleNotification perm now s e =
      { registry := mapSet (cancelNotification s e.id).registry e.id
          (cancelNotification s e.id).nextTimeoutId,
        timers := (cancelNotification s e.id).timers ++
          [{ timeoutId := (cancelNotification s e.id).nextTimeoutId, eventId := e.id,
             fireAt := inst - (e.reminderMinutes.getD 0 : Int) * 60000,
             payload := { title := "Upcoming: " ++ e.title, body := notificationBody e,
                          tag := e.id } }],
        fired := (cancelNotification s e.id).fired,
        nextTimeoutId := (cancelNotification s e.id).nextTimeoutId + 1 } := by
  unfold scheduleNotification
  rw [hguard, hperm]
  simp only [if_false, Bool.false_eq_true, ne_eq, not_true_eq_false, reduceIte]
  rw [hc]
  have hnotle : ¬ (inst - (e.reminderMinutes.getD 0 : Int) * 60000 ≤ now) := by omega
  simp only [hnotle, if_false, reduceIte]

/-! ## Claims -/

/-- C1. Scheduling the same event id twice with different start times leaves
exactly one armed timer for that id — the one armed by the second call, set
for the second computed trigger instant — with the registry mapping the id to
that handle; the first handle can no longer fire, and firing the remaining
handle emits exactly one notification at the second trigger instant. -/
theorem claim_C1 (now : Int) (s : SchedulerState) (e1 e2 : CalendarEvent)
    (inst1 inst2 : Int)
    (hid : e2.id = e1.id)
    (_hdiff : e1.startTime ≠ e2.startTime)
    (hguard1 : (!truthyNat e1.reminderMinutes || !truthyStr e1.startTime || e1.allDay) = false)
    (hguard2 : (!truthyNat e2.reminderMinutes || !truthyStr e2.startTime || e2.allDay) = false)
    (hc1 : combineDateTime e1.date (e1.startTime.getD ("")) = some inst1)
    (hc2 : combineDateTime e2.date (e2.startTime.getD ("")) = some inst2)
    (hfut1 : now < inst1 - (e1.reminderMinutes.getD 0 : Int) * 60000)
    (hfut2 : now < inst2 - (e2.reminderMinutes.getD 0 : Int) * 60000)
    (hreg : mapGet s.registry e1.id = none)
    (htim : ∀ t ∈ s.timers, t.eventId ≠ e1.id)
    (hfresh : ∀ t ∈ s.timers, t.timeoutId < s.nextTimeoutId)
    (hpos : 0 < s.nextTimeoutId) :
    (scheduleNotification (some NotifPerm.granted) now
        (scheduleNotification (some NotifPerm.granted) now s e1) e2).timers.filter
        (fun t => t.eventId == e1.id)
      = [armedTimer e2 (s.nextTimeoutId + 1)
          (inst2 - (e2.reminderMinutes.getD 0 : Int) * 60000)]
    ∧ mapGet (scheduleNotification (some NotifPerm.granted) now
        (scheduleNotification (some NotifPerm.granted) now s e1) e2).registry e1.id
      = some (s.nextTimeoutId + 1)
    ∧ (scheduleNotification (some NotifPerm.granted) now
        (scheduleNotification (some NotifPerm.granted) now s e1) e2).fired = s.fired
    ∧ fireTimer (scheduleNotification (some NotifPerm.granted) now
        (scheduleNotification (some NotifPerm.granted) now s e1) e2) s.nextTimeoutId
      = scheduleNotification (some NotifPerm.granted) now
          (scheduleNotification (some NotifPerm.granted) now s e1) e2
    ∧ (fireTimer (scheduleNotification (some NotifPerm.granted) now
        (scheduleNotification (some NotifPerm.granted) now s e1) e2)
        (s.nextTimeoutId + 1)).fired
      = s.fired ++ [(inst2 - (e2.reminderMinutes.getD 0 : Int) * 60000,
          { title := "Upcoming: " ++ e2.title, body := notificationBody e2,
            tag := e2.id })] := by
  have hcs : cancelNotification s e1.id = s := cancelNotification_of_none s e1.id hreg
  have hs1 : scheduleNotification (some NotifPerm.granted) now s e1
      = { registry := mapSet s.registry e1.id s.nextTimeoutId,
          timers := s.timers ++ [armedTimer e1 s.nextTimeoutId
            (inst1 - (e1.reminderMinutes.getD 0 : Int) * 60000)],
          fired := s.fired,
          nextTimeoutId := s.nextTimeoutId + 1 } := by
    rw [scheduleNotification_arms _ now s e1 inst1 hguard1 rfl hc1 hfut1, hcs]
    rfl
  have htids : s.nextTimeoutId ≠ 0 := by omega
  have hget1 : mapGet (mapSet s.registry e1.id s.nextTimeoutId) e2.id
      = some s.nextTimeoutId := by
    rw [hid]
    exact mapGet_mapSet_self _ _ _
  have hfilter1 : (s.timers ++ [armedTimer e1 s.nextTimeoutId
        (inst1 - (e1.reminderMinutes.getD 0 : Int) * 60000)]).filter
        (fun t => t.timeoutId != s.nextTimeoutId) = s.timers := by
    rw [List.filter_append]
    have hA : s.timers.filter (fun t => t.timeoutId != s.nextTimeoutId) = s.timers := by
      rw [List.filter_eq_self]
      intro t ht
      have := hfresh t ht
      simp only [bne_iff_ne, ne_eq]
      omega
    have hB : [armedTimer e1 s.nextTimeoutId
        (inst1 - (e1.reminderMinutes.getD 0 : Int) * 60000)].filter
        (fun t => t.timeoutId != s.nextTimeoutId) = [] := by
      simp [armedTimer]
    rw [hA, hB, List.append_nil]
  have hcancel2 : cancelNotification
      ({ registry := mapSet s.registry e1.id s.nextTimeoutId,
         timers := s.timers ++ [armedTimer e1 s.nextTimeoutId
           (inst1 - (e1.reminderMinutes.getD 0 : Int) * 60000)],
         fired := s.fired,
         nextTimeoutId := s.nextTimeoutId + 1 } : SchedulerState) e2.id
      = { registry := mapDelete (mapSet s.registry e1.id s.nextTimeoutId) e2.id,
          timers := s.timers,
          fired := s.fired,
          nextTimeoutId := s.nextTimeoutId + 1 } := by
    unfold cancelNotification
    dsimp only
    rw [hget1]
    dsimp only
    rw [if_pos htids, hfilter1]
  have hs2 : scheduleNotification (some NotifPerm.granted) now
      (scheduleNotification (some NotifPerm.granted) now s e1) e2
    = { registry := mapSet (mapDelete (mapSet s.registry e1.id s.nextTimeoutId) e2.id)
          e2.id (s.nextTimeoutId + 1),
        timers := s.timers ++ [armedTimer e2 (s.nextTimeoutId + 1)
          (inst2 - (e2.reminderMinutes.getD 0 : Int) * 60000)],
        fired := s.fired,
        nextTimeoutId := s.nextTimeoutId + 1 + 1 } := by
    rw [hs1]
    rw [scheduleNotification_arms _ now _ e2 inst2 hguard2 rfl hc2 hfut2]
    rw [hcancel2]
    rfl
  rw [hs2]
  have hT2find : ∀ q : Nat, s.nextTimeoutId ≤ q →
      (s.timers ++ [armedTimer e2 (s.nextTimeoutId + 1)
        (inst2 - (e2.reminderMinutes.getD 0 : Int) * 60000)]).find?
        (fun t => t.timeoutId == q)
      = if s.nextTimeoutId + 1 = q
        then some (armedTimer e2 (s.nextTimeoutId + 1)
          (inst2 - (e2.reminderMinutes.getD 0 : Int) * 60000))
        else none := by
    intro q hq
    rw [List.find?_append]
    have hpre : s.timers.find? (fun t => t.timeoutId == q) = none := by
      rw [List.find?_eq_none]
      intro x hx
      have := hfresh x hx
      simp only [beq_iff_eq]
      omega
    rw [hpre]
    by_cases hq2 : s.nextTimeoutId + 1 = q
    · simp [List.find?_cons, armedTimer, hq2]
    · simp [List.find?_cons, armedTimer, hq2]
  refine ⟨?_, ?_, rfl, ?_, ?_⟩
  · dsimp only
    rw [List.filter_append]
    have hA : s.timers.filter (fun t => t.eventId == e1.id) = [] := by
      rw [List.filter_eq_nil_iff]
      intro t ht
      have := htim t ht
      simp [this]
    rw [hA]
    simp [armedTimer, hid]
  · dsimp only
    rw [hid]
    exact mapGet_mapSet_self _ _ _
  · unfold fireTimer
    dsimp only
    rw [hT2find s.nextTimeoutId (le_refl _)]
    rw [if_neg (by omega)]
  · unfold fireTimer
    dsimp only
    rw [hT2find (s.nextTimeoutId + 1) (by omega)]
    rw [if_pos rfl]
    simp [armedTimer]

/-- Witness for C1: two saves of `ev-meet` (14:00 then 16:00) from a fresh
scheduler, with `now = 0`. -/
theorem claim_C1_witness :
    (scheduleNotification (some NotifPerm.granted) 0
        (scheduleNotification (some NotifPerm.granted) 0 initialSchedulerState
          firstDraftEvent) secondDraftEvent).timers.filter
        (fun t => t.eventId == firstDraftEvent.id)
      = [armedTimer secondDraftEvent (initialSchedulerState.nextTimeoutId + 1)
          (1717257600000 - (secondDraftEvent.reminderMinutes.getD 0 : Int) * 60000)]
    ∧ mapGet (scheduleNotification (some NotifPerm.granted) 0
        (scheduleNotification (some NotifPerm.granted) 0 initialSchedulerState
          firstDraftEvent) secondDraftEvent).registry firstDraftEvent.id
      = some (initialSchedulerState.nextTimeoutId + 1)
    ∧ (scheduleNotification (some NotifPerm.granted) 0
        (scheduleNotification (some NotifPerm.granted) 0 initialSchedulerState
          firstDraftEvent) secondDraftEvent).fired = initialSchedulerState.fired
    ∧ fireTimer (scheduleNotification (some NotifPerm.granted) 0
        (scheduleNotification (some NotifPerm.granted) 0 initialSchedulerState
          firstDraftEvent) secondDraftEvent) initialSchedulerState.nextTimeoutId
      = scheduleNotification (some NotifPerm.granted) 0
          (scheduleNotification (some NotifPerm.granted) 0 initialSchedulerState
            firstDraftEvent) secondDraftEvent
    ∧ (fireTimer (scheduleNotification (some NotifPerm.granted) 0
        (scheduleNotification (some NotifPerm.granted) 0 initialSchedulerState
          firstDraftEvent) secondDraftEvent)
        (initialSchedulerState.nextTimeoutId + 1)).fired
      = initialSchedulerState.fired
        ++ [(1717257600000 - (secondDraftEvent.reminderMinutes.getD 0 : Int) * 60000,
            { title := "Upcoming: " ++ secondDraftEvent.title,
              body := notificationBody secondDraftEvent,
              tag := secondDraftEvent.id })] :=
  claim_C1 0 initialSchedulerState firstDraftEvent secondDraftEvent
    1717250400000 1717257600000 rfl (by decide) (by decide) (by decide)
    (by decide) (by decide) (by decide) (by decide) rfl
    (by simp [initialSchedulerState]) (by simp [initialSchedulerState]) (by decide)

/-- Counterexample to C2 as stated: scheduling `pastEvent` (trigger in the
past) with a stale registry entry for its id leaves the scheduler state
untouched — the stale entry for `ev-1` is still present, not cleared. -/
theorem claim_C2_counterexample :
    scheduleNotification (some NotifPerm.granted) lateNow staleRegistryState pastEvent
      = staleRegistryState
    ∧ mapGet (scheduleNotification (some NotifPerm.granted) lateNow staleRegistryState
        pastEvent).registry ("ev-1") = some 1 := by
  constructor <;> decide

/-- C2 (amended). When the computed trigger instant is not after `now`,
`scheduleNotification` arms no timer and emits no notification: it returns
with the scheduler state entirely unchanged — in particular any stale
registry entry for the event id is left in place, not cleared. -/
theorem claim_C2_amended (perm : Option NotifPerm) (now : Int) (s : SchedulerState)
    (e : CalendarEvent) (inst : Int)
    (hc : combineDateTime e.date (e.startTime.getD ("")) = some inst)
    (hpast : inst - (e.reminderMinutes.getD 0 : Int) * 60000 ≤ now) :
    scheduleNotification perm now s e = s := by
  unfold scheduleNotification
  split
  · rfl
  · split
    · rfl
    · rw [hc]
      simp [hpast]

/-- Witness for C2 (amended) at `pastEvent` and `lateNow`. -/
theorem claim_C2_witness :
    scheduleNotification (some NotifPerm.granted) lateNow staleRegistryState pastEvent
      = staleRegistryState :=
  claim_C2_amended (some NotifPerm.granted) lateNow staleRegistryState pastEvent
    1717250400000 (by decide) (by decide)

/-- Counterexample to C3 as stated: `scheduleNotification` on an all-day
event does not call cancel — the pending registry entry for `ev-1` is still
present after the call. -/
theorem claim_C3_counterexample :
    scheduleNotification (some NotifPerm.granted) 0 staleRegistryState allDayReminder
      = staleRegistryState
    ∧ mapGet (scheduleNotification (some NotifPerm.granted) 0 staleRegistryState
        allDayReminder).registry ("ev-1") = some 1 := by
  constructor <;> decide

/-- C3 (amended). For an event with `allDay`, or falsy `reminderMinutes`, or
falsy `startTime`, `scheduleNotification` itself returns without arming a
timer and without touching the registry; the cancellation happens in the
caller: the save handler takes its else-branch, calling
`cancelNotification(event.id)`, after which no registry entry for the id
remains (given the registered handle is a real, nonzero one). -/
theorem claim_C3_amended (perm : Option NotifPerm) (pg : Bool) (now : Int)
    (s : SchedulerState) (e : CalendarEvent)
    (hguard : (!truthyNat e.reminderMinutes || !truthyStr e.startTime || e.allDay) = true)
    (h0 : mapGet s.registry e.id ≠ some 0) :
    scheduleNotification perm now s e = s
    ∧ handleSaveNotify perm now s e pg = cancelNotification s e.id
    ∧ mapGet (handleSaveNotify perm now s e pg).registry e.id = none := by
  have hsched : scheduleNotification perm now s e = s := by
    unfold scheduleNotification
    rw [hguard]
    simp
  have hcond : (truthyNat e.reminderMinutes && truthyStr e.startTime && !e.allDay) = false := by
    cases hr : truthyNat e.reminderMinutes <;> cases hs : truthyStr e.startTime <;>
      cases ha : e.allDay <;> simp_all
  have hsave : handleSaveNotify perm now s e pg = cancelNotification s e.id := by
    unfold handleSaveNotify
    rw [hcond]
    simp
  refine ⟨hsched, hsave, ?_⟩
  rw [hsave]
  unfold cancelNotification
  cases hmg : mapGet s.registry e.id with
  | none => exact hmg
  | some tid =>
    have htid : tid ≠ 0 := by
      intro hcc
      exact h0 (hcc ▸ hmg)
    dsimp only
    rw [if_pos htid]
    exact mapGet_mapDelete_self _ _

/-- Witness for C3 (amended) at `allDayReminder` on `staleRegistryState`. -/
theorem claim_C3_witness :
    scheduleNotification (some NotifPerm.granted) 0 staleRegistryState allDayReminder
      = staleRegistryState
    ∧ handleSaveNotify (some NotifPerm.granted) 0 staleRegistryState allDayReminder true
      = cancelNotification staleRegistryState ("ev-1")
    ∧ mapGet (handleSaveNotify (some NotifPerm.granted) 0 staleRegistryState allDayReminder
        true).registry ("ev-1") = none :=
  claim_C3_amended (some NotifPerm.granted) true 0 staleRegistryState allDayReminder
    (by decide) (by decide)

/-- C4. When the timer armed by `scheduleNotification` fires, a notification
is emitted whose tag is the event id, with title `Upcoming: <title>` and body
built from the start time and description, and the registry entry for that id
is removed by the callback. -/
theorem claim_C4 (now : Int) (s : SchedulerState) (e : CalendarEvent) (inst : Int)
    (hguard : (!truthyNat e.reminderMinutes || !truthyStr e.startTime || e.allDay) = false)
    (hc : combineDateTime e.date (e.startTime.getD ("")) = some inst)
    (hfut : now < inst - (e.reminderMinutes.getD 0 : Int) * 60000)
    (hfresh : ∀ t ∈ s.timers, t.timeoutId < s.nextTimeoutId) :
    (fireTimer (scheduleNotification (some NotifPerm.granted) now s e) s.nextTimeoutId).fired
      = (scheduleNotification (some NotifPerm.granted) now s e).fired
        ++ [(inst - (e.reminderMinutes.getD 0 : Int) * 60000,
             { title := "Upcoming: " ++ e.title, body := notificationBody e, tag := e.id })]
    ∧ mapGet (fireTimer (scheduleNotification (some NotifPerm.granted) now s e)
        s.nextTimeoutId).registry e.id = none := by
  rw [scheduleNotification_arms (some NotifPerm.granted) now s e inst hguard rfl hc hfut,
    cancelNotification_nextTimeoutId]
  have hpre : (cancelNotification s e.id).timers.find?
      (fun t => t.timeoutId == s.nextTimeoutId) = none := by
    rw [List.find?_eq_none]
    intro x hx
    have hlt := hfresh x (cancelNotification_timers_subset s e.id x hx)
    simp only [beq_iff_eq]
    omega
  have hfind : ((cancelNotification s e.id).timers ++
      [({ timeoutId := s.nextTimeoutId, eventId := e.id,
          fireAt := inst - (e.reminderMinutes.getD 0 : Int) * 60000,
          payload := { title := "Upcoming: " ++ e.title, body := notificationBody e,
                       tag := e.id } } : PendingTimer)]).find?
        (fun t => t.timeoutId == s.nextTimeoutId)
      = some { timeoutId := s.nextTimeoutId, eventId := e.id,
               fireAt := inst - (e.reminderMinutes.getD 0 : Int) * 60000,
               payload := { title := "Upcoming: " ++ e.title, body := notificationBody e,
                            tag := e.id } } := by
    rw [List.find?_append, hpre]
    simp [List.find?_cons]
  unfold fireTimer
  rw [hfind]
  exact ⟨rfl, mapGet_mapDelete_self _ _⟩

/-- Witness for C4 at `reminderEvent` scheduled from a fresh scheduler. -/
theorem claim_C4_witness :
    (fireTimer (scheduleNotification (some NotifPerm.granted) 0 initialSchedulerState
        reminderEvent) initialSchedulerState.nextTimeoutId).fired
      = (scheduleNotification (some NotifPerm.granted) 0 initialSchedulerState
          reminderEvent).fired
        ++ [(1717250400000 - (reminderEvent.reminderMinutes.getD 0 : Int) * 60000,
             { title := "Upcoming: " ++ reminderEvent.title,
               body := notificationBody reminderEvent, tag := reminderEvent.id })]
    ∧ mapGet (fireTimer (scheduleNotification (some NotifPerm.granted) 0
        initialSchedulerState reminderEvent)
        initialSchedulerState.nextTimeoutId).registry reminderEvent.id = none :=
  claim_C4 0 initialSchedulerState reminderEvent 1717250400000
    (by decide) (by decide) (by decide) (by simp [initialSchedulerState])

/-- C5. The layout function returns `none` exactly when the event is all-day
or has no start time; otherwise it returns
`top = startMinutes / 60 * hourHeight` and
`height = max ((endMinutes - startMinutes) / 60 * hourHeight) 15`, so a
09:00-10:30 event at 60 px/hour is positioned at `{top := 540, height := 90}`
and no positioned event is ever shorter than 15 px. -/
theorem claim_C5 (e : CalendarEvent) (h : ℚ)
    (hwf : e.startTime ≠ some ("")) :
    (getEventPosition e h = none ↔ (e.allDay = true ∨ e.startTime = none))
    ∧ (∀ sp : Span, getEventPosition e h = some sp →
        sp.top = startMinutesVal e / 60 * h
        ∧ sp.height = max ((effectiveEndVal e - startMinutesVal e) / 60 * h) MIN_HEIGHT_PX
        ∧ MIN_HEIGHT_PX ≤ sp.height)
    ∧ getEventPosition standupEvent 60 = some ⟨540, 90⟩ := by
  refine ⟨?_, ?_, ?_⟩
  · rcases hst : e.startTime with _ | s
    · simp [getEventPosition, truthyStr, hst]
    · have hs : ¬ (s = "") := by intro hc; exact hwf (hc ▸ hst)
      by_cases had : e.allDay
      · simp [getEventPosition, truthyStr, hst, had]
      · simp [getEventPosition, truthyStr, hst, had, hs]
  · intro sp hsp
    unfold getEventPosition at hsp
    split at hsp
    · exact absurd hsp (by simp)
    · simp only [Option.some.injEq] at hsp
      subst hsp
      exact ⟨rfl, rfl, le_max_right _ _⟩
  · simp +decide [getEventPosition, standupEvent, startMinutesVal, effectiveEndVal,
      looseTimeMinutes, numOrZero, digitsToNat?, splitOnChar, truthyStr, MIN_HEIGHT_PX]
    norm_num

/-- Witness for C5 at the concrete 09:00-10:30 event and 60 px/hour. -/
theorem claim_C5_witness :
    getEventPosition standupEvent 60 = some ⟨540, 90⟩ :=
  (claim_C5 standupEvent 60 (by decide)).2.2

/-- C6. For a timed event with a start time, a missing end time and an end
time not strictly after the start are both laid out with effective end
`start + 60 min`: the layout equals that of the same event with no end
time. -/
theorem claim_C6 (e : CalendarEvent) (h : ℚ) (st : String)
    (hst : e.startTime = some st) (had : e.allDay = false)
    (hend : e.endTime = none ∨
      (∀ et, e.endTime = some et → looseTimeMinutes et ≤ looseTimeMinutes st)) :
    getEventPosition e h = getEventPosition { e with endTime := none } h := by
  rcases e with ⟨id, title, desc, date, stOpt, etOpt, ad, rem⟩
  obtain rfl : stOpt = some st := hst
  obtain rfl : ad = false := had
  rcases hend with hnone | hle
  · obtain rfl : etOpt = none := hnone
    rfl
  · rcases het : etOpt with _ | et
    · rfl
    · obtain rfl : etOpt = some et := het
      have hle' : looseTimeMinutes et ≤ looseTimeMinutes st := hle et rfl
      by_cases hempty : et = ""
      · subst hempty
        simp [getEventPosition, startMinutesVal, effectiveEndVal, truthyStr]
      · simp only [getEventPosition, startMinutesVal, effectiveEndVal, truthyStr,
          Option.getD_some, Bool.not_eq_true]
        have h1 : (et == "") = false := by simp [hempty]
        have h2 : ¬ (looseTimeMinutes st + 60 ≤ looseTimeMinutes st) := by
          intro hc
          linarith
        simp [h1, h2, hle']

/-- Witness for C6 at the concrete inverted event 10:00-09:30. -/
theorem claim_C6_witness :
    getEventPosition invertedEvent 60
      = getEventPosition { invertedEvent with endTime := none } 60 :=
  claim_C6 invertedEvent 60 ("10:00") rfl rfl (Or.inr (by
    intro et h
    have he : "09:30" = et := by injection h
    subst he
    simp +decide [looseTimeMinutes, numOrZero, digitsToNat?, splitOnChar]
    norm_num))

/-- C7. `updateEvent` on an id absent from the stored collection fails with
the NotFound signal (`none`) and leaves the store unchanged; `deleteEvent` on
an absent id fails with `false` and leaves the store unchanged. -/
theorem claim_C7 (st : EventStore) (u : CalendarEvent) (eid : String)
    (h1 : ∀ e ∈ safelyGetEvents st, e.id ≠ u.id)
    (h2 : ∀ e ∈ safelyGetEvents st, e.id ≠ eid) :
    updateEvent st u = (st, none) ∧ deleteEvent st eid = (st, false) := by
  constructor
  · unfold updateEvent
    have hfi : (safelyGetEvents st).findIdx? (fun e => e.id == u.id) = none := by
      rw [List.findIdx?_eq_none_iff]
      intro x hx
      simp [h1 x hx]
    simp [hfi]
  · unfold deleteEvent
    have hfe : (safelyGetEvents st).filter (fun e => e.id != eid) = safelyGetEvents st := by
      rw [List.filter_eq_self]
      intro a ha
      simp [h2 a ha]
    simp [hfe]

/-- Witness for C7 on a store that does not contain the targeted ids. -/
theorem claim_C7_witness :
    updateEvent storeA invertedEvent = (storeA, none)
    ∧ deleteEvent storeA ("no-such-id") = (storeA, false) :=
  claim_C7 storeA invertedEvent ("no-such-id") (by decide) (by decide)

/-- Counterexample to C8 as stated: on a store whose medium rejects writes,
`updateEvent` of an existing id persists nothing yet returns the updated
entity (`some`), `deleteEvent` returns `true`, and `addEvent` returns the
id-assigned entity — each call reports its normal success value, not a
failure signal. -/
theorem claim_C8_counterexample :
    (updateEvent failStore editedStandup).1.stored = [standupEvent]
    ∧ (updateEvent failStore editedStandup).2 = some editedStandup
    ∧ (deleteEvent failStore ("ev-standup")).1.stored = [standupEvent]
    ∧ (deleteEvent failStore ("ev-standup")).2 = true
    ∧ (addEvent failStore invertedEvent ("fresh-id")).1.stored = [standupEvent]
    ∧ (addEvent failStore invertedEvent ("fresh-id")).2 = { invertedEvent with id := "fresh-id" } := by
  refine ⟨?_, ?_, ?_, ?_, ?_, ?_⟩ <;>
    simp +decide [updateEvent, deleteEvent, addEvent, safelyGetEvents, safelySetEvents,
      failStore, editedStandup, standupEvent, invertedEvent]

/-- C8 (amended). When the underlying write fails, every mutating store call
catches the failure (it is a total function here: nothing propagates), leaves
the previously durable state untouched — but returns the same success value
as a successful call, giving the caller no failure signal. -/
theorem claim_C8_amended (st : EventStore) (hw : st.writeFails = true)
    (ev u : CalendarEvent) (newId eid : String) :
    (addEvent st ev newId).1.stored = st.stored
    ∧ (addEvent st ev newId).2 = { ev with id := newId }
    ∧ (updateEvent st u).1.stored = st.stored
    ∧ (deleteEvent st eid).1.stored = st.stored := by
  refine ⟨?_, rfl, ?_, ?_⟩
  · simp [addEvent, safelySetEvents, hw]
  · unfold updateEvent
    cases hfi : (safelyGetEvents st).findIdx? (fun e => e.id == u.id) <;>
      simp [hfi, safelySetEvents, hw]
  · unfold deleteEvent
    by_cases hlen : (((safelyGetEvents st).filter (fun e => e.id != eid)).length
        = (safelyGetEvents st).length) <;>
      simp [hlen, safelySetEvents, hw]

/-- Witness for C8 (amended) at the failing store. -/
theorem claim_C8_witness :
    (updateEvent failStore editedStandup).1.stored = failStore.stored :=
  (claim_C8_amended failStore rfl invertedEvent editedStandup ("fresh-id") ("x")).2.2.1

/-- C9. With notifications supported: if permission is already granted the
call returns `true` with no prompt and no state change; if previously denied
it returns `false` with no prompt; otherwise it prompts exactly once,
persists the resulting permission state, and returns whether that result is
`granted`. -/
theorem claim_C9 (env : PermEnv) (state : Option NotifPerm)
    (hsup : env.supported = true) :
    (state = some NotifPerm.granted →
      requestNotificationPermission env state = (true, state, 0))
    ∧ (state = some NotifPerm.denied →
      requestNotificationPermission env state = (false, state, 0))
    ∧ (state ≠ some NotifPerm.granted → state ≠ some NotifPerm.denied →
      env.promptThrows = false →
      requestNotificationPermission env state
        = (env.promptResult == NotifPerm.granted, some env.promptResult, 1)) := by
  refine ⟨?_, ?_, ?_⟩
  · intro h
    simp [requestNotificationPermission, hsup, h]
  · intro h
    simp [requestNotificationPermission, hsup, h]
  · intro h1 h2 h3
    simp [requestNotificationPermission, hsup, h1, h2, h3]

/-- Witness for C9: un-prompted state, prompt resolves to granted. -/
theorem claim_C9_witness :
    requestNotificationPermission
      { supported := true, promptResult := NotifPerm.granted, promptThrows := false }
      none = (true, some NotifPerm.granted, 1) := by
  have h := (claim_C9
    { supported := true, promptResult := NotifPerm.granted, promptThrows := false }
    none rfl).2.2 (by simp) (by simp) rfl
  simpa using h

/-- C10. `toggleTodoCompletion` on a present id flips only that todo's
`completed` field (the record at the found index becomes the same record with
`completed` negated; every other index is unchanged) and returns the updated
todo; applying it twice restores the original store; on an absent id it
returns the failure signal `none` and changes nothing. -/
theorem claim_C10 (st : TodoStore) (todoId : String) (hw : st.writeFails = false) :
    ((∀ t ∈ st.stored, t.id ≠ todoId) → toggleTodoCompletion st todoId = (st, none))
    ∧ (∀ i t, st.stored.findIdx? (fun td => td.id == todoId) = some i →
        st.stored[i]? = some t →
        (toggleTodoCompletion st todoId).2 = some { t with completed := !t.completed }
        ∧ ((toggleTodoCompletion st todoId).1.stored)[i]?
            = some { t with completed := !t.completed }
        ∧ ∀ j, j ≠ i → ((toggleTodoCompletion st todoId).1.stored)[j]? = st.stored[j]?)
    ∧ ((∃ t ∈ st.stored, t.id = todoId) →
        (toggleTodoCompletion (toggleTodoCompletion st todoId).1 todoId).1 = st) := by
  obtain ⟨stored, wf⟩ := st
  obtain rfl : wf = false := hw
  refine ⟨?_, ?_, ?_⟩
  · intro habs
    have hfi : stored.findIdx? (fun td => td.id == todoId) = none := by
      rw [List.findIdx?_eq_none_iff]
      intro x hx
      simp [habs x hx]
    simp [toggleTodoCompletion, safelyGetTodos, hfi]
  · intro i t hfi hget
    dsimp only at hfi hget ⊢
    have hlen : i < stored.length := by
      by_contra hc
      rw [List.getElem?_eq_none (by omega)] at hget
      exact Option.noConfusion hget
    simp only [toggleTodoCompletion, safelyGetTodos, hfi, hget, safelySetTodos,
      if_false, Bool.false_eq_true]
    refine ⟨trivial, ?_, ?_⟩
    · simpa using List.getElem?_set_self (a := { t with completed := !t.completed }) hlen
    · intro j hj
      simpa using List.getElem?_set_ne (a := { t with completed := !t.completed })
        (Ne.symm hj)
  · rintro ⟨t0, ht0mem, ht0id⟩
    dsimp only at ht0mem ⊢
    have hne : stored.findIdx? (fun td => td.id == todoId) ≠ none := by
      intro hc
      rw [List.findIdx?_eq_none_iff] at hc
      have hcontra := hc t0 ht0mem
      simp [ht0id] at hcontra
    obtain ⟨i, hfi⟩ := Option.ne_none_iff_exists'.mp hne
    obtain ⟨x, hx, hpx, hmin⟩ := findIdx?_some_spec _ _ _ hfi
    have hlen : i < stored.length := by
      by_contra hc
      rw [List.getElem?_eq_none (by omega)] at hx
      exact Option.noConfusion hx
    have hstep1 :
        (toggleTodoCompletion ⟨stored, false⟩ todoId).1
          = ⟨stored.set i { x with completed := !x.completed }, false⟩ := by
      simp only [toggleTodoCompletion, safelyGetTodos, hfi, hx, safelySetTodos,
        if_false, Bool.false_eq_true]
    rw [hstep1]
    have hfi2 : (stored.set i { x with completed := !x.completed }).findIdx?
        (fun td => td.id == todoId) = some i := by
      apply findIdx?_eq_some_of
      · exact ⟨{ x with completed := !x.completed },
          List.getElem?_set_self (by simpa using hlen), by simpa using hpx⟩
      · intro j hj y hy
        rw [List.getElem?_set_ne (by omega)] at hy
        exact hmin j hj y hy
    have hx2 : (stored.set i { x with completed := !x.completed })[i]?
        = some { x with completed := !x.completed } :=
      List.getElem?_set_self (by simpa using hlen)
    have hback : ({ x with completed := !x.completed } : TodoItem).completed = !x.completed := rfl
    simp only [toggleTodoCompletion, safelyGetTodos, hfi2, hx2, safelySetTodos,
      if_false, Bool.false_eq_true]
    have hxx : ({ ({ x with completed := !x.completed } : TodoItem) with
        completed := !(({ x with completed := !x.completed } : TodoItem).completed) } : TodoItem) = x := by
      cases x
      simp
    rw [List.set_set]
    congr 1
    rw [show ({ ({ x with completed := !x.completed } : TodoItem) with
        completed := !(({ x with completed := !x.completed } : TodoItem).completed) } : TodoItem) = x from hxx]
    exact set_getElem?_self stored i x hx

/-- Witness for C10: double toggle of `todo-2` restores the store. -/
theorem claim_C10_witness :
    (toggleTodoCompletion (toggleTodoCompletion todoStoreA ("todo-2")).1 ("todo-2")).1
      = todoStoreA :=
  (claim_C10 todoStoreA ("todo-2") rfl).2.2 ⟨todoB, by decide, rfl⟩

end MobileApp
